import Mathlib

/-!
Verification of the i18n translation manager (src/i18n.py).

The Python class `I18n` keeps a cache of YAML translation tables, a current
locale and a default locale, and resolves dot-separated message keys with
fallback and placeholder substitution.  The definitions below are a shallow
embedding of that code: the mutable object state becomes the structure
`I18n`, file I/O becomes an explicit map from paths to parse results, and
Python exceptions become `Except` / `Option` values threaded together with
the post-call state.
-/

/-- Values produced by deserializing a translation YAML file: either a leaf
string (a message template) or a nested mapping from string keys to further
values, the shapes the translation files of this repository hold. -/
inductive Yaml where
  | str : String → Yaml
  | map : List (String × Yaml) → Yaml

/-- An arbitrary Python value supplied as a substitution keyword argument.
Only its behaviour under `str(v)` is observable in `t`: `toStr = some s`
models `str(v)` returning `s`, and `toStr = none` models `str(v)` raising. -/
structure PyVal where
  toStr : Option String

/-- A Python string used as a substitution value (its `str` never raises). -/
def pyStr (s : String) : PyVal := ⟨some s⟩

/-- Lookup in a Python dict modelled as an association list (first match).
Python dicts have unique keys, so first-match lookup is faithful. -/
def dictGet (k : String) : List (String × Yaml) → Option Yaml
  | [] => none
  | (k1, v) :: rest => if k = k1 then some v else dictGet k rest

/-- Accumulator-style worker for `splitDot`. -/
def splitDotAux : List Char → List Char → List String
  | [], acc => [String.mk acc.reverse]
  | c :: rest, acc =>
    if c = '.' then String.mk acc.reverse :: splitDotAux rest []
    else splitDotAux rest (c :: acc)

/-- Python `key_path.split(".")` (nonempty separator): always returns at
least one piece, and empty pieces are kept. -/
def splitDot (s : String) : List String := splitDotAux s.data []

/-- Whether `pat` is a prefix of `l` (character lists). -/
def isPrefixList : List Char → List Char → Bool
  | [], _ => true
  | _ :: _, [] => false
  | p :: ps, c :: cs => p = c && isPrefixList ps cs

/-- Fuel-indexed worker for `pyReplace`: scan left to right, and at each
position either emit the replacement and skip over the pattern, or keep the
character.  Each step consumes at least one character of a nonempty input,
so fuel equal to the input length suffices. -/
def replaceAux (pat repl : List Char) : Nat → List Char → List Char
  | _, [] => []
  | 0, l => l
  | fuel + 1, c :: rest =>
    if isPrefixList pat (c :: rest) then
      repl ++ replaceAux pat repl fuel (List.drop pat.length (c :: rest))
    else
      c :: replaceAux pat repl fuel rest

/-- Python `s.replace(pat, repl)`: replace every leftmost non-overlapping
occurrence of `pat` in `s` by `repl` (the patterns used in `t` are never
empty, so the empty-pattern corner of Python `str.replace` never arises). -/
def pyReplace (s pat repl : String) : String :=
  String.mk (replaceAux pat.data repl.data s.data.length s.data)

/-- Errors raised while loading a locale file: `open` failing
(file missing/unreadable) or `yaml.safe_load` failing to parse.  The spec
calls both `LoadError`. -/
inductive LoadError where
  | loadError : LoadError

/-- The storage collaborator: maps a file path to the parse result of that
file, `none` when opening or parsing it raises. -/
abbrev Fs := String → Option Yaml

/-- Python `os.path.join(dir, file)` for the simple relative shapes used
here. -/
def joinPath (dir file : String) : String := dir ++ "/" ++ file

/-- The state of an `I18n` instance: the four attributes set in
`__init__`. -/
structure I18n where
  translations_dir : String
  default_locale : String
  _translations_cache : List (String × Yaml)
  _current_locale : String

/-- Method `_load_translations_for_locale` (src/i18n.py lines 32-43): on a
cache hit return the cached table untouched; otherwise read and parse
`{translations_dir}/{locale}.yml`, cache it, and return it.  A failed read
raises before the cache is touched, so the error case returns the state
unchanged. -/
def _load_translations_for_locale (fs : Fs) (s : I18n) (locale : String) :
    Except LoadError Yaml × I18n :=
  match dictGet locale s._translations_cache with
  | some tbl => (Except.ok tbl, s)
  | none =>
    match fs (joinPath s.translations_dir (locale ++ ".yml")) with
    | some tbl =>
      (Except.ok tbl,
        { s with _translations_cache := s._translations_cache ++ [(locale, tbl)] })
    | none => (Except.error LoadError.loadError, s)

/-- Constructor `__init__` (src/i18n.py lines 15-30): set the four
attributes, then eagerly load the default locale.  A raising load aborts
construction, so no instance is produced in that case. -/
def init (fs : Fs) (translations_dir default_locale : String) :
    Except LoadError I18n :=
  let s0 : I18n := ⟨translations_dir, default_locale, [], default_locale⟩
  match _load_translations_for_locale fs s0 default_locale with
  | (Except.ok _, s1) => Except.ok s1
  | (Except.error e, _) => Except.error e

/-- Method `set_locale` (src/i18n.py lines 45-54): assign
`_current_locale := locale` first, then attempt the load; a raising load
propagates but the locale assignment stays. -/
def set_locale (fs : Fs) (s : I18n) (locale : String) :
    Except LoadError Unit × I18n :=
  let s1 := { s with _current_locale := locale }
  match _load_translations_for_locale fs s1 locale with
  | (Except.ok _, s2) => (Except.ok (), s2)
  | (Except.error e, s2) => (Except.error e, s2)

/-- Walk of `_get_nested_value`: descend through the split key segments,
failing as soon as the current value is not a mapping containing the next
segment. -/
def getNestedGo : List String → Yaml → Option Yaml
  | [], current => some current
  | k :: rest, current =>
    match current with
    | Yaml.map entries =>
      match dictGet k entries with
      | some v => getNestedGo rest v
      | none => none
    | Yaml.str _ => none

/-- Method `_get_nested_value` (src/i18n.py lines 56-67): split the key
path on dots and walk the nested mapping; return `none` (Python `None`) on
any miss or on a non-dict intermediate value. -/
def _get_nested_value (data : Yaml) (key_path : String) : Option Yaml :=
  getNestedGo (splitDot key_path) data

/-- One iteration of the substitution loop body (src/i18n.py lines 98-100)
for entry `(k, vs)` where `vs = str(v)`: replace the bare occurrence
`{k}` first, then the single-quoted `'{k}'`, then the double-quoted
`"{k}"`, each on the result of the previous replacement. -/
def applySub (acc k vs : String) : String :=
  pyReplace
    (pyReplace
      (pyReplace acc ("\x7b" ++ k ++ "\x7d") vs)
      ("\x27\x7b" ++ k ++ "\x7d\x27") vs)
    ("\x22\x7b" ++ k ++ "\x7d\x22") vs

/-- The substitution loop (src/i18n.py lines 97-100) over the keyword
arguments in their iteration order; `none` models an entry whose `str(v)`
raises, which aborts the whole loop. -/
def foldSubs : String → List (String × PyVal) → Option String
  | acc, [] => some acc
  | acc, (k, v) :: rest =>
    match v.toStr with
    | some vs => foldSubs (applySub acc k vs) rest
    | none => none

/-- The `try`/`except` block of `t` (src/i18n.py lines 95-103): on a string
message run the loop and return its result, and on any exception — a
non-string message (`.replace` raises `AttributeError`) or a failing
`str(v)` — return the resolved message unchanged.  A non-string message
with no keyword arguments also returns the message unchanged, so both
non-string paths collapse to returning `message`. -/
def substitute (message : Yaml) (kwargs : List (String × PyVal)) : Yaml :=
  match message with
  | Yaml.str tmpl =>
    match foldSubs tmpl kwargs with
    | some formatted => Yaml.str formatted
    | none => message
  | Yaml.map _ => message

/-- Resolution part of `t` (src/i18n.py lines 81-90): look the key up in
the cached table of the current locale (an empty dict when that locale has
no cache entry), and when that yields `None` and the current locale differs
from the default one, repeat the lookup against the cached table of the
default locale. -/
def resolveMessage (s : I18n) (key : String) : Option Yaml :=
  let current_locale_translations :=
    (dictGet s._current_locale s._translations_cache).getD (Yaml.map [])
  match _get_nested_value current_locale_translations key with
  | some m => some m
  | none =>
    if s._current_locale ≠ s.default_locale then
      _get_nested_value
        ((dictGet s.default_locale s._translations_cache).getD (Yaml.map [])) key
    else
      none

/-- Method `t` (src/i18n.py lines 69-103): resolve the key with fallback,
return the key itself when nothing is found, otherwise apply the
substitution loop under the exception guard.  The method only reads the
instance attributes, which the threaded state makes explicit; note that on
the dict-message path the returned value is that dict, not a string.  It
takes no `Fs` argument because `t` performs no file access. -/
def t (s : I18n) (key : String) (kwargs : List (String × PyVal)) :
    Yaml × I18n :=
  match resolveMessage s key with
  | none => (Yaml.str key, s)
  | some message => (substitute message kwargs, s)

/-- Appending a fresh cache entry preserves every lookup that already
succeeded (first-match lookup). -/
theorem dictGet_append_of_some (c : List (String × Yaml)) (l loc : String)
    (v tb : Yaml) (h : dictGet l c = some v) :
    dictGet l (c ++ [(loc, tb)]) = some v := by
  induction c with
  | nil => exact Option.noConfusion h
  | cons hd tl ih =>
    obtain ⟨k1, v1⟩ := hd
    by_cases hk : l = k1
    · simp only [dictGet, List.cons_append, if_pos hk] at h ⊢
      exact h
    · simp only [dictGet, List.cons_append, if_neg hk] at h ⊢
      exact ih h

/-- When some keyword argument has a raising `str`, the substitution loop
as a whole raises, i.e. produces no string. -/
theorem foldSubs_none_of_fail (kwargs : List (String × PyVal)) (acc : String)
    (h : ∃ kv ∈ kwargs, kv.2.toStr = none) :
    foldSubs acc kwargs = none := by
  induction kwargs generalizing acc with
  | nil =>
    obtain ⟨kv, hm, _⟩ := h
    exact absurd hm (List.not_mem_nil kv)
  | cons hd tl ih =>
    obtain ⟨k, v⟩ := hd
    obtain ⟨kv, hm, hf⟩ := h
    cases hv : v.toStr with
    | none => simp [foldSubs, hv]
    | some vs =>
      rcases List.mem_cons.mp hm with heq | hmem
      · subst heq
        exact Option.noConfusion (hf.symm.trans hv)
      · simp only [foldSubs, hv]
        exact ih (applySub acc k vs) ⟨kv, hmem, hf⟩

/-- When every keyword argument is a plain string, the substitution loop is
exactly a left fold of the per-entry replacement over the list, in list
order. -/
theorem foldSubs_map_pyStr (subs : List (String × String)) (acc : String) :
    foldSubs acc (subs.map fun p => (p.1, pyStr p.2)) =
      some (subs.foldl (fun a p => applySub a p.1 p.2) acc) := by
  induction subs generalizing acc with
  | nil => rfl
  | cons hd tl ih =>
    obtain ⟨k, vs⟩ := hd
    simpa [foldSubs, pyStr] using ih (applySub acc k vs)

/-- Example state for the quoted-placeholder behaviour: the current (and
default) locale table maps `greeting` to the template
`Value is \x27\x7bx\x7d\x27`. -/
def quoteState : I18n :=
  ⟨"locales", "en",
   [("en", Yaml.map [("greeting", Yaml.str "Value is \x27\x7bx\x7d\x27")])],
   "en"⟩

/-- C1: the claim says the quoted occurrence of a placeholder is replaced
with the quote characters removed, so the template `Value is \x27\x7bx\x7d\x27`
with `x = 42` should give `Value is 42`.  The code replaces the bare
occurrence `\x7bx\x7d` first (src/i18n.py line 98), which destroys the quoted
occurrence before lines 99-100 look for it, so the quotes survive: the
result is `Value is \x2742\x27`, not `Value is 42`. -/
theorem quoted_placeholder_quotes_retained :
    (t quoteState "greeting" [("x", pyStr "42")]).1 =
      Yaml.str "Value is \x2742\x27" ∧
    (t quoteState "greeting" [("x", pyStr "42")]).1 ≠ Yaml.str "Value is 42" := by
  refine ⟨rfl, ?_⟩
  intro h
  have h1 : Yaml.str "Value is \x2742\x27" = Yaml.str "Value is 42" := h
  injection h1 with h2
  exact absurd h2 (by decide)

/-- Example state for dot-path resolution: the table
`\x7berrors: \x7bvalidation: \x7blength: Too short\x7d\x7d\x7d`. -/
def nestedState : I18n :=
  ⟨"locales", "en",
   [("en", Yaml.map
      [("errors", Yaml.map
        [("validation", Yaml.map [("length", Yaml.str "Too short")])])])],
   "en"⟩

/-- C2: resolving the full path `errors.validation.length` gives the leaf
`Too short` as the claim says, but resolving `errors.validation` — which
lands on a nested mapping — does NOT return the key: `_get_nested_value`
returns the mapping itself (not `None`), so `t` returns that mapping object,
contradicting the claim (and the docstring of `t`, which promises the key
when no translation is found). -/
theorem nested_mapping_returned_not_key :
    (t nestedState "errors.validation.length" []).1 = Yaml.str "Too short" ∧
    (t nestedState "errors.validation" []).1 =
      Yaml.map [("length", Yaml.str "Too short")] ∧
    (t nestedState "errors.validation" []).1 ≠ Yaml.str "errors.validation" := by
  refine ⟨rfl, rfl, ?_⟩
  intro h
  have h1 : Yaml.map [("length", Yaml.str "Too short")] =
      Yaml.str "errors.validation" := h
  exact Yaml.noConfusion h1

/-- C3: `set_locale` assigns the current-locale field before attempting the
load, so after any call — including one whose load fails and propagates an
error — the current locale equals the argument; and on a failed load the
new current locale has no cache entry. -/
theorem set_locale_updates_current_locale_first (fs : Fs) (s : I18n)
    (locale : String) :
    ((set_locale fs s locale).2)._current_locale = locale ∧
    ∀ e, (set_locale fs s locale).1 = Except.error e →
      dictGet locale ((set_locale fs s locale).2)._translations_cache = none := by
  cases hcache : dictGet locale s._translations_cache with
  | some tbl =>
    refine ⟨?_, ?_⟩
    · simp [set_locale, _load_translations_for_locale, hcache]
    · intro e he
      simp [set_locale, _load_translations_for_locale, hcache] at he
  | none =>
    cases hfs : fs (joinPath s.translations_dir (locale ++ ".yml")) with
    | some tbl =>
      refine ⟨?_, ?_⟩
      · simp [set_locale, _load_translations_for_locale, hcache, hfs]
      · intro e he
        simp [set_locale, _load_translations_for_locale, hcache, hfs] at he
    | none =>
      refine ⟨?_, ?_⟩
      · simp [set_locale, _load_translations_for_locale, hcache, hfs]
      · intro e he
        simp [set_locale, _load_translations_for_locale, hcache, hfs]

/-- C4: resolution precedence in `t`.  (1) When the key resolves in the
cached table of the current locale, the result is built from that message —
regardless of what the cached default table holds, so the current locale
wins even when the default differs.  (2) When the current-locale resolution
yields nothing and the current locale differs from the default, `t` repeats
the nested lookup against the cached default table (and only against the
cache: `t` takes no storage argument at all and leaves the state unchanged),
so a key present only in the default table yields the default message.
(3) When the locales coincide, a miss goes straight to the key fallback. -/
theorem translate_precedence (s : I18n) (key : String)
    (kwargs : List (String × PyVal)) :
    (∀ msgC,
      _get_nested_value
          ((dictGet s._current_locale s._translations_cache).getD (Yaml.map []))
          key = some msgC →
        t s key kwargs = (substitute msgC kwargs, s)) ∧
    (s._current_locale ≠ s.default_locale →
      _get_nested_value
          ((dictGet s._current_locale s._translations_cache).getD (Yaml.map []))
          key = none →
        t s key kwargs =
          (match _get_nested_value
              ((dictGet s.default_locale s._translations_cache).getD (Yaml.map []))
              key with
           | some msgD => (substitute msgD kwargs, s)
           | none => (Yaml.str key, s))) ∧
    (s._current_locale = s.default_locale →
      _get_nested_value
          ((dictGet s._current_locale s._translations_cache).getD (Yaml.map []))
          key = none →
        t s key kwargs = (Yaml.str key, s)) := by
  refine ⟨?_, ?_, ?_⟩
  · intro msgC hC
    simp [t, resolveMessage, hC]
  · intro hne hC
    simp only [t, resolveMessage, hC]
    rw [if_pos hne]
    cases hD : _get_nested_value
        ((dictGet s.default_locale s._translations_cache).getD (Yaml.map []))
        key <;> simp [hD]
  · intro heq hC
    simp only [t, resolveMessage, hC]
    rw [if_neg (not_not_intro heq)]

/-- C5: a key absent from both cached tables makes `t` return the key
itself, untouched by any substitution entries. -/
theorem translate_missing_key_returns_key (s : I18n) (key : String)
    (kwargs : List (String × PyVal))
    (hc : _get_nested_value
        ((dictGet s._current_locale s._translations_cache).getD (Yaml.map []))
        key = none)
    (hd : _get_nested_value
        ((dictGet s.default_locale s._translations_cache).getD (Yaml.map []))
        key = none) :
    (t s key kwargs).1 = Yaml.str key := by
  simp only [t, resolveMessage, hc]
  by_cases hne : s._current_locale ≠ s.default_locale
  · rw [if_pos hne, hd]
  · rw [if_neg hne]

/-- C6: when the key resolves to a message and some substitution entry has
a raising string conversion, `t` swallows the error and returns the
resolved message itself with no substitutions applied — not the raw key and
not a propagated exception (the embedding of `t` is a total function, so no
input can make it raise). -/
theorem translate_substitution_error_returns_message (s : I18n) (key : String)
    (kwargs : List (String × PyVal)) (msg : Yaml)
    (hres : resolveMessage s key = some msg)
    (hfail : ∃ kv ∈ kwargs, kv.2.toStr = none) :
    (t s key kwargs).1 = msg := by
  simp only [t, hres]
  cases msg with
  | str tmpl => simp [substitute, foldSubs_none_of_fail kwargs tmpl hfail]
  | map entries => simp [substitute]

/-- C7: with plain string substitution values, `t` applies the entries
sequentially in list order as a left fold, each entry rewriting the
already-partially-substituted accumulator — so a substituted value that
contains a later placeholder token is rewritten again by that later entry
(sequential-pass, not single-pass parallel, semantics). -/
theorem translate_substitutions_sequential (s : I18n) (key tmpl : String)
    (subs : List (String × String))
    (hres : resolveMessage s key = some (Yaml.str tmpl)) :
    (t s key (subs.map fun p => (p.1, pyStr p.2))).1 =
      Yaml.str (subs.foldl (fun acc p => applySub acc p.1 p.2) tmpl) := by
  simp [t, hres, substitute, foldSubs_map_pyStr]

/-- C8: cache behaviour.  (1) For a locale already cached, the load returns
the cached table with the state untouched, and since the storage map `fs`
is universally quantified the result is the same for every storage — no
file read can have occurred.  (2)-(4) Lookups that succeed in the cache
keep succeeding with the same value after a load, after `set_locale`, and
after `t`: the cache grows monotonically and entries are never evicted or
overwritten. -/
theorem load_locale_cache_hit_and_monotone (fs : Fs) (s : I18n)
    (locale : String) :
    (∀ tbl, dictGet locale s._translations_cache = some tbl →
        _load_translations_for_locale fs s locale = (Except.ok tbl, s)) ∧
    (∀ l v, dictGet l s._translations_cache = some v →
        dictGet l
          ((_load_translations_for_locale fs s locale).2)._translations_cache =
          some v) ∧
    (∀ l v, dictGet l s._translations_cache = some v →
        dictGet l ((set_locale fs s locale).2)._translations_cache = some v) ∧
    (∀ key kwargs l v, dictGet l s._translations_cache = some v →
        dictGet l ((t s key kwargs).2)._translations_cache = some v) := by
  refine ⟨?_, ?_, ?_, ?_⟩
  · intro tbl h
    simp [_load_translations_for_locale, h]
  · intro l v h
    cases hcache : dictGet locale s._translations_cache with
    | some tbl => simpa [_load_translations_for_locale, hcache] using h
    | none =>
      cases hfs : fs (joinPath s.translations_dir (locale ++ ".yml")) with
      | some tbl =>
        simp only [_load_translations_for_locale, hcache, hfs]
        exact dictGet_append_of_some _ _ _ _ _ h
      | none => simpa [_load_translations_for_locale, hcache, hfs] using h
  · intro l v h
    cases hcache : dictGet locale s._translations_cache with
    | some tbl =>
      simpa [set_locale, _load_translations_for_locale, hcache] using h
    | none =>
      cases hfs : fs (joinPath s.translations_dir (locale ++ ".yml")) with
      | some tbl =>
        simp only [set_locale, _load_translations_for_locale, hcache, hfs]
        exact dictGet_append_of_some _ _ _ _ _ h
      | none =>
        simpa [set_locale, _load_translations_for_locale, hcache, hfs] using h
  · intro key kwargs l v h
    cases hres : resolveMessage s key <;> simpa [t, hres] using h

/-- C9: construction eagerly loads and caches the default locale table
(and makes it the current locale), and a missing or unparsable default
locale file makes construction fail with the propagated `LoadError`,
yielding no instance at all. -/
theorem init_eager_load_default (fs : Fs) (dir dl : String) :
    (∀ tbl, fs (joinPath dir (dl ++ ".yml")) = some tbl →
        init fs dir dl = Except.ok ⟨dir, dl, [(dl, tbl)], dl⟩) ∧
    (fs (joinPath dir (dl ++ ".yml")) = none →
        init fs dir dl = Except.error LoadError.loadError) := by
  constructor
  · intro tbl h
    simp [init, _load_translations_for_locale, dictGet, h]
  · intro h
    simp [init, _load_translations_for_locale, dictGet, h]

/-- C10: `t` is read-only on the translator state: the post-call state —
the cache, the current locale, the default locale and the translations
directory — is exactly the pre-call state, for every key and every
substitution mapping. -/
theorem translate_state_readonly (s : I18n) (key : String)
    (kwargs : List (String × PyVal)) :
    (t s key kwargs).2 = s := by
  cases hres : resolveMessage s key <;> simp [t, hres]

/-- Witness for C3: switching a fresh translator to `fr` over storage with
no files fails the load, yet the current locale is `fr` and `fr` has no
cache entry. -/
theorem set_locale_updates_current_locale_first_witness :
    ((set_locale (fun _ => none) ⟨"locales", "en", [], "en"⟩ "fr").2)._current_locale = "fr" ∧
    dictGet "fr"
      ((set_locale (fun _ => none) ⟨"locales", "en", [], "en"⟩ "fr").2)._translations_cache = none :=
  ⟨(set_locale_updates_current_locale_first (fun _ => none)
      ⟨"locales", "en", [], "en"⟩ "fr").1,
   (set_locale_updates_current_locale_first (fun _ => none)
      ⟨"locales", "en", [], "en"⟩ "fr").2 LoadError.loadError rfl⟩

/-- State for the precedence witness: current locale `fr` has `greet` but
not `only`; default locale `en` has both, with a different `greet`. -/
def precState : I18n :=
  ⟨"locales", "en",
   [("en", Yaml.map [("greet", Yaml.str "hello"), ("only", Yaml.str "default-only")]),
    ("fr", Yaml.map [("greet", Yaml.str "bonjour")])],
   "fr"⟩

/-- Witness for C4: `greet` yields the current-locale message `bonjour`
despite the differing default message, `only` falls back to the default
message, and a fresh single-locale translator returns a missing key
itself. -/
theorem translate_precedence_witness :
    t precState "greet" [] = (Yaml.str "bonjour", precState) ∧
    t precState "only" [] = (Yaml.str "default-only", precState) ∧
    t ⟨"locales", "en", [], "en"⟩ "nope" [] =
      (Yaml.str "nope", ⟨"locales", "en", [], "en"⟩) :=
  ⟨(translate_precedence precState "greet" []).1 (Yaml.str "bonjour") rfl,
   (translate_precedence precState "only" []).2.1 (by decide) rfl,
   (translate_precedence ⟨"locales", "en", [], "en"⟩ "nope" []).2.2 rfl rfl⟩

/-- Witness for C5: a key missing from the only cached table comes back
verbatim even with a substitution entry supplied. -/
theorem translate_missing_key_returns_key_witness :
    (t ⟨"locales", "en", [("en", Yaml.map [])], "en"⟩ "missing"
        [("x", pyStr "1")]).1 = Yaml.str "missing" :=
  translate_missing_key_returns_key ⟨"locales", "en", [("en", Yaml.map [])], "en"⟩
    "missing" [("x", pyStr "1")] rfl rfl

/-- Witness for C6: a substitution value whose string conversion raises
makes `t` return the resolved template untouched. -/
theorem translate_substitution_error_returns_message_witness :
    (t ⟨"locales", "en", [("en", Yaml.map [("m", Yaml.str "hello \x7bname\x7d")])], "en"⟩
        "m" [("name", ⟨none⟩)]).1 = Yaml.str "hello \x7bname\x7d" :=
  translate_substitution_error_returns_message
    ⟨"locales", "en", [("en", Yaml.map [("m", Yaml.str "hello \x7bname\x7d")])], "en"⟩
    "m" [("name", ⟨none⟩)] (Yaml.str "hello \x7bname\x7d") rfl
    ⟨("name", ⟨none⟩), by simp⟩

/-- State for the sequential-substitution witness: the template is the
single placeholder `\x7ba\x7d`. -/
def cascadeState : I18n :=
  ⟨"locales", "en", [("en", Yaml.map [("m", Yaml.str "\x7ba\x7d")])], "en"⟩

/-- Witness for C7: substituting `a` with the text `\x7bb\x7d` and then `b`
with `X` yields `X` — the second entry rewrites the output of the first,
which a single-pass parallel substitution would leave as `\x7bb\x7d`. -/
theorem translate_substitutions_sequential_witness :
    (t cascadeState "m"
        ([("a", "\x7bb\x7d"), ("b", "X")].map fun p => (p.1, pyStr p.2))).1 =
      Yaml.str "X" :=
  translate_substitutions_sequential cascadeState "m" "\x7ba\x7d"
    [("a", "\x7bb\x7d"), ("b", "X")] rfl

/-- State for the cache witness: locale `en` cached with one table. -/
def cacheState : I18n :=
  ⟨"locales", "en", [("en", Yaml.map [("k", Yaml.str "v")])], "en"⟩

/-- Witness for C8: a repeated load of `en` returns the cached table with
the state untouched even over storage with no files, and the `en` entry
survives a load of `fr`, a `set_locale` to `fr`, and a `t` call. -/
theorem load_locale_cache_hit_and_monotone_witness :
    _load_translations_for_locale (fun _ => none) cacheState "en" =
      (Except.ok (Yaml.map [("k", Yaml.str "v")]), cacheState) ∧
    dictGet "en"
      ((_load_translations_for_locale (fun _ => some (Yaml.map []))
          cacheState "fr").2)._translations_cache =
      some (Yaml.map [("k", Yaml.str "v")]) ∧
    dictGet "en"
      ((set_locale (fun _ => some (Yaml.map [])) cacheState "fr").2)._translations_cache =
      some (Yaml.map [("k", Yaml.str "v")]) ∧
    dictGet "en" ((t cacheState "k" []).2)._translations_cache =
      some (Yaml.map [("k", Yaml.str "v")]) :=
  ⟨(load_locale_cache_hit_and_monotone (fun _ => none) cacheState "en").1
      (Yaml.map [("k", Yaml.str "v")]) rfl,
   (load_locale_cache_hit_and_monotone (fun _ => some (Yaml.map [])) cacheState "fr").2.1
      "en" (Yaml.map [("k", Yaml.str "v")]) rfl,
   (load_locale_cache_hit_and_monotone (fun _ => some (Yaml.map [])) cacheState "fr").2.2.1
      "en" (Yaml.map [("k", Yaml.str "v")]) rfl,
   (load_locale_cache_hit_and_monotone (fun _ => none) cacheState "x").2.2.2
      "k" [] "en" (Yaml.map [("k", Yaml.str "v")]) rfl⟩

/-- Witness for C9: over storage holding only `locales/en.yml`,
construction succeeds with the default table cached, and over empty
storage it fails with `LoadError`. -/
theorem init_eager_load_default_witness :
    init (fun p => if p = "locales/en.yml" then some (Yaml.map []) else none)
        "locales" "en" =
      Except.ok ⟨"locales", "en", [("en", Yaml.map [])], "en"⟩ ∧
    init (fun _ => none) "locales" "en" = Except.error LoadError.loadError :=
  ⟨(init_eager_load_default
      (fun p => if p = "locales/en.yml" then some (Yaml.map []) else none)
      "locales" "en").1 (Yaml.map []) rfl,
   (init_eager_load_default (fun _ => none) "locales" "en").2 rfl⟩
